import Mathlib

/-!
Verification development for the pg_gateway TCP load balancer.

The development shallowly embeds the parts of the C source that the
properties below are about:

* the synthesized PostgreSQL ErrorResponse frame (gateway.c, send_pg_error);
* address comparison (main.c, sockaddr_equal) and the primary-publication
  step of the health loop (health_check.c, health_thread_func);
* the per-candidate status classification of one health cycle
  (health_check.c) and the server-count gauges (metrics.c);
* the acceptor's routing decision and connection registration (main.c);
* the forwarder worker's event-batch loop (forwarder.c) together with the
  per-connection teardown and data driver.

The current repository splits the program into main.c / forwarder.c /
health_check.c / metrics.c with shared declarations in gateway.h.  The
gateway.c present in the tree is an earlier standalone revision (it has its
own main and a conn type without the closed and registered fields), so the
current definitions of close_conn and drive_connection are not in the tree;
where they are needed they are modelled from the specification and from the
contracts stated in gateway.h, and this is recorded in their doc comments.

Machine integers are modelled as Nat / Int; none of the embedded
computations relies on wrap-around.  File descriptors are Int (with -1 for
a released descriptor), byte strings are List Nat.
-/

set_option autoImplicit false

namespace PgGateway

/-! ## PostgreSQL ErrorResponse frame (gateway.c, send_pg_error) -/

/-- ASCII bytes of a string (all message components are ASCII). -/
def strBytes (s : String) : List Nat :=
  s.toList.map Char.toNat

/-- 32-bit big-endian encoding, as produced by htonl plus memcpy. -/
def be32 (n : Nat) : List Nat :=
  [n / 2 ^ 24 % 256, n / 2 ^ 16 % 256, n / 2 ^ 8 % 256, n % 256]

/-- The byte stream built by send_pg_error (gateway.c lines 173-240):
a byte 'E', a 32-bit big-endian length equal to 4 plus the length of the
fields, field 'S' "FATAL", field 'C' "08006", field 'M' message, each
NUL-terminated, and a final NUL. -/
def send_pg_error (message : String) : List Nat :=
  let severity := "FATAL"
  let sqlstate := "08006"
  let msg_len :=
    (1 + severity.length + 1) + (1 + sqlstate.length + 1) +
      (1 + message.length + 1) + 1
  let total_len := 4 + msg_len
  [69] ++ be32 total_len ++
    [83] ++ strBytes severity ++ [0] ++
    [67] ++ strBytes sqlstate ++ [0] ++
    [77] ++ strBytes message ++ [0] ++ [0]

/-- The message used by main.c when no primary is available. -/
def noPrimaryMsg : String := "no healthy PostgreSQL primary available"

/-- The byte sequence the specification claims for the no-primary frame
(spec section 8, scenario 2); its fifth byte (the low byte of the length
field) is 0x5f. -/
def specClaimedNoPrimaryBytes : List Nat :=
  [0x45, 0x00, 0x00, 0x00, 0x5f, 0x53, 0x46, 0x41, 0x54, 0x41, 0x4c, 0x00,
   0x43, 0x30, 0x38, 0x30, 0x30, 0x36, 0x00, 0x4d, 0x6e, 0x6f, 0x20, 0x68,
   0x65, 0x61, 0x6c, 0x74, 0x68, 0x79, 0x20, 0x50, 0x6f, 0x73, 0x74, 0x67,
   0x72, 0x65, 0x53, 0x51, 0x4c, 0x20, 0x70, 0x72, 0x69, 0x6d, 0x61, 0x72,
   0x79, 0x20, 0x61, 0x76, 0x61, 0x69, 0x6c, 0x61, 0x62, 0x6c, 0x65, 0x00,
   0x00]

/-- The byte sequence the code actually produces for the no-primary frame:
identical except that the length field is 0x0000003c (= 60 = 4 + 56 field
bytes). -/
def actualNoPrimaryBytes : List Nat :=
  [0x45, 0x00, 0x00, 0x00, 0x3c, 0x53, 0x46, 0x41, 0x54, 0x41, 0x4c, 0x00,
   0x43, 0x30, 0x38, 0x30, 0x30, 0x36, 0x00, 0x4d, 0x6e, 0x6f, 0x20, 0x68,
   0x65, 0x61, 0x6c, 0x74, 0x68, 0x79, 0x20, 0x50, 0x6f, 0x73, 0x74, 0x67,
   0x72, 0x65, 0x53, 0x51, 0x4c, 0x20, 0x70, 0x72, 0x69, 0x6d, 0x61, 0x72,
   0x79, 0x20, 0x61, 0x76, 0x61, 0x69, 0x6c, 0x61, 0x62, 0x6c, 0x65, 0x00,
   0x00]

/-! ## Addresses (main.c, sockaddr_equal; gateway.h, target_addr_t) -/

def AF_INET : Nat := 2
def AF_INET6 : Nat := 10

/-- Abstraction of struct sockaddr_storage: the address family, the port in
network order, and the raw address bytes (4 for AF_INET, 16 for AF_INET6).
For other families the whole record stands for the raw struct memory that
the fallback memcmp compares. -/
structure SockAddr where
  family : Nat
  port : Nat
  addr : List Nat
  deriving DecidableEq, Repr

/-- main.c lines 84-103: length mismatch or family mismatch implies
inequality; AF_INET compares sin_port and the 4 address bytes; AF_INET6
compares sin6_port and the 16 address bytes; any other family falls back to
memcmp of the raw bytes (modelled as equality of the records). -/
def sockaddr_equal (a : SockAddr) (a_len : Nat) (b : SockAddr) (b_len : Nat) : Bool :=
  if a_len ≠ b_len then false
  else if a.family ≠ b.family then false
  else if a.family = AF_INET then
    decide (a.port = b.port ∧ a.addr = b.addr)
  else if a.family = AF_INET6 then
    decide (a.port = b.port ∧ a.addr = b.addr)
  else
    decide (a = b)

/-- gateway.h target_addr_t (the printable host_str is irrelevant here). -/
structure TargetAddr where
  addr : SockAddr
  addr_len : Nat
  valid : Bool
  deriving DecidableEq, Repr

/-- gateway.h candidate_t, reduced to the pre-resolved target; the host and
port strings and the libpq session only feed the probe oracle below. -/
structure Candidate where
  target : TargetAddr
  deriving DecidableEq, Repr

/-! ## Primary publication (health_check.c lines 250-282) -/

/-- The pair of process-wide values written by the health thread and read by
the acceptor and the workers. -/
structure PrimarySt where
  g_primary_idx : Int
  g_epoch : Int
  deriving DecidableEq, Repr

/-- The candidate-table scan of health_check.c lines 256-262: the first
index whose cached target compares equal (by sockaddr_equal) to the freshly
resolved address, or -1 when none matches. -/
def find_new_idx_go : List Candidate → TargetAddr → Nat → Int
  | [], _, _ => -1
  | cd :: rest, nt, i =>
    if sockaddr_equal cd.target.addr cd.target.addr_len nt.addr nt.addr_len then
      (i : Int)
    else
      find_new_idx_go rest nt (i + 1)

def find_new_idx (cands : List Candidate) (nt : TargetAddr) : Int :=
  find_new_idx_go cands nt 0

/-- health_check.c lines 250-282: the publication step of one health cycle.
ok says whether a writable primary was found and its DNS resolution
succeeded; new_target is the freshly resolved address.  Returns the new
global state together with the changed flag. -/
def health_publish (cands : List Candidate) (ok : Bool) (new_target : TargetAddr)
    (st : PrimarySt) : PrimarySt × Bool :=
  if ok then
    let new_idx := find_new_idx cands new_target
    if new_idx ≠ st.g_primary_idx then
      ({ g_primary_idx := new_idx, g_epoch := st.g_epoch + 1 }, true)
    else
      (st, false)
  else
    if st.g_primary_idx ≥ 0 then
      ({ g_primary_idx := -1, g_epoch := st.g_epoch + 1 }, true)
    else
      (st, false)

/-- Several cycles of publications in sequence. -/
def run_cycles (cands : List Candidate) (st : PrimarySt) :
    List (Bool × TargetAddr) → PrimarySt
  | [] => st
  | inp :: rest => run_cycles cands (health_publish cands inp.1 inp.2 st).1 rest

/-! ## Health-cycle status classification and server gauges
(health_check.c lines 192-320, metrics.c lines 35-38) -/

/-- Outcome of check_postgres_primary for one candidate: writable primary,
read-only standby (reason contains "read-only"), or any failure. -/
inductive ProbeOutcome
  | primaryOk
  | readOnlyStandby
  | failed
  deriving DecidableEq, Repr

/-- The four per-backend statuses of health_check.c lines 154-160. -/
inductive BackendStatus
  | primary
  | primaryNotUsed
  | replica
  | unhealthy
  deriving DecidableEq, Repr

/-- health_check.c lines 203-238: scan the candidates in order; the first
writable primary is Primary, later writable ones are Primary(not-used),
read-only standbys are Replica, everything else Unhealthy.  The Bool
accumulator is the ok flag of the loop. -/
def scan_statuses_go (ok : Bool) : List ProbeOutcome → List BackendStatus
  | [] => []
  | p :: rest =>
    match p with
    | .primaryOk =>
      if ok then .primaryNotUsed :: scan_statuses_go ok rest
      else .primary :: scan_statuses_go true rest
    | .readOnlyStandby => .replica :: scan_statuses_go ok rest
    | .failed => .unhealthy :: scan_statuses_go ok rest

def scan_statuses (probes : List ProbeOutcome) : List BackendStatus :=
  scan_statuses_go false probes

/-- Number of candidates classified as Primary or Replica in a cycle. -/
def healthy_count (sts : List BackendStatus) : Nat :=
  (sts.filter (fun s => decide (s = .primary ∨ s = .replica))).length

/-- The two server gauges of metrics.c. -/
structure ServerGauges where
  g_servers_total : Int
  g_servers_healthy : Int
  deriving DecidableEq, Repr

/-- metrics.c lines 35-38. -/
def metrics_set_server_counts (total healthy : Int) : ServerGauges :=
  { g_servers_total := total, g_servers_healthy := healthy }

/-- parse_candidates (health_check.c line 87) initialises the gauges to
(number of candidates, 0); this is the only call of
metrics_set_server_counts in the program. -/
def parse_candidates_gauges (ncand : Nat) : ServerGauges :=
  metrics_set_server_counts (ncand : Int) 0

/-- Oracle inputs of one health cycle: the probe outcome of each candidate
in order, and the result of re-resolving the found primary (none when DNS
resolution failed). -/
structure HealthCycleIn where
  probes : List ProbeOutcome
  resolved : Option TargetAddr
  deriving Repr

/-- One full iteration of health_thread_func (health_check.c lines
192-320): scan and classify the candidates, re-resolve the found primary,
publish.  The cycle does not call metrics_set_server_counts anywhere, so
the gauges are returned unchanged. -/
def health_cycle (cands : List Candidate) (inp : HealthCycleIn)
    (st : PrimarySt) (gauges : ServerGauges) :
    PrimarySt × ServerGauges × List BackendStatus :=
  let statuses := scan_statuses inp.probes
  let found := inp.probes.any (fun p => decide (p = .primaryOk))
  let st' :=
    match inp.resolved, found with
    | some nt, true => (health_publish cands true nt st).1
    | some nt, false => (health_publish cands false nt st).1
    | none, _ =>
      (health_publish cands false { addr := ⟨0, 0, []⟩, addr_len := 0, valid := false } st).1
  (st', gauges, statuses)

/-! ## Acceptor routing (main.c lines 244-251) -/

inductive AcceptAction
  | sendError (bytes : List Nat)
  | proceed (idx : Nat)
  deriving DecidableEq, Repr

/-- main.c lines 244-251: with a relaxed load of g_primary_idx, an index
that is negative or out of range makes the acceptor write the no-primary
ErrorResponse frame and close the client; otherwise the accept proceeds
against that candidate. -/
def acceptor_route (primary_idx : Int) (ncand : Nat) : AcceptAction :=
  if primary_idx < 0 ∨ primary_idx ≥ (ncand : Int) then
    .sendError (send_pg_error noPrimaryMsg)
  else
    .proceed primary_idx.toNat

/-! ## Connections and workers (gateway.h lines 66-94) -/

inductive ConnState
  | connecting
  | established
  deriving DecidableEq, Repr

/-- gateway.h conn_t: two sockets, two pipe pairs (ends -1 when released),
the epoch stamp, the closed and registered flags and the state tag. -/
structure Conn where
  client_fd : Int
  backend_fd : Int
  epoch_bound : Int
  closed : Bool
  registered : Bool
  c2b_pipe_r : Int
  c2b_pipe_w : Int
  b2c_pipe_r : Int
  b2c_pipe_w : Int
  state : ConnState
  deriving DecidableEq, Repr

/-- Modelled from the spec: the current close_conn implementation is not in
the tree (the gateway.c present is an earlier standalone revision whose
conn type has no closed flag).  gateway.h line 129 declares it as returning
1 if the connection is closed now and 0 if it was already closed, and the
spec (sections 3 and 4.2) says teardown closes both sockets and all four
pipe ends and marks closed, with the closed flag single-writer-wins.  The
record itself is kept (leak-on-close, spec section 3). -/
def close_conn (c : Conn) : Int × Conn :=
  if c.closed then (0, c)
  else
    (1, { c with
            closed := true, client_fd := -1, backend_fd := -1,
            c2b_pipe_r := -1, c2b_pipe_w := -1,
            b2c_pipe_r := -1, b2c_pipe_w := -1 })

/-- Result of one splice-in call chain (gateway.c splice_in contract:
moved bytes, 0 on EOF, no-data on immediate would-block, or error). -/
inductive SpliceInRes
  | bytes (n : Nat)
  | eof
  | nodata
  | ioerr
  deriving DecidableEq, Repr

/-- Result of one splice-out call chain. -/
inductive SpliceOutRes
  | ok
  | ioerr
  deriving DecidableEq, Repr

/-- Result of querying SO_ERROR on the backend socket of a connecting
connection: still in progress, a non-zero error, or zero. -/
inductive SoErrRes
  | inProgress
  | connErr
  | noErr
  deriving DecidableEq, Repr

/-- The kernel-side inputs consumed by one drive_connection invocation. -/
structure DriveIo where
  so_err : SoErrRes
  c2b_in : SpliceInRes
  c2b_out : SpliceOutRes
  b2c_in : SpliceInRes
  b2c_out : SpliceOutRes
  deriving DecidableEq, Repr

/-- The integer a splice_in call chain returns: the positive byte count,
0 on EOF, -2 for no data, -1 on error. -/
def splice_in_ret : SpliceInRes → Int
  | .bytes n => (n : Int)
  | .eof => 0
  | .nodata => -2
  | .ioerr => -1

/-- metrics.c lines 27-29: add to the client-to-backend byte counter iff
the delta is positive. -/
def metrics_add_bytes_c2b (counter delta : Int) : Int :=
  if delta > 0 then counter + delta else counter

/-- metrics.c lines 31-33: add to the backend-to-client byte counter iff
the delta is positive. -/
def metrics_add_bytes_b2c (counter delta : Int) : Int :=
  if delta > 0 then counter + delta else counter

/-- Result of one drive_connection invocation: the status code of
gateway.h line 130 (0 ok, -1 client closed, -2 backend closed, -3 error),
the updated connection, and the updated byte counters. -/
structure DriveOut where
  result : Int
  conn : Conn
  m_c2b : Int
  m_b2c : Int
  deriving DecidableEq, Repr

/-- Modelled from the spec: the data-flow half of the current
drive_connection is not in the tree.  Per spec section 4.4, for each
direction in order client-to-backend then backend-to-client: splice-in the
source socket (EOF gives the matching teardown reason, error gives IOError,
moved bytes are added to the direction's byte counter), then splice-out the
pipe to the destination (error gives IOError).  The status codes are those
of gateway.h line 130. -/
def drive_data (c : Conn) (io : DriveIo) (mc mb : Int) : DriveOut :=
  match io.c2b_in with
  | .eof => ⟨-1, c, mc, mb⟩
  | .ioerr => ⟨-3, c, mc, mb⟩
  | r =>
    let mc := metrics_add_bytes_c2b mc (splice_in_ret r)
    match io.c2b_out with
    | .ioerr => ⟨-3, c, mc, mb⟩
    | .ok =>
      match io.b2c_in with
      | .eof => ⟨-2, c, mc, mb⟩
      | .ioerr => ⟨-3, c, mc, mb⟩
      | r2 =>
        let mb := metrics_add_bytes_b2c mb (splice_in_ret r2)
        match io.b2c_out with
        | .ioerr => ⟨-3, c, mc, mb⟩
        | .ok => ⟨0, c, mc, mb⟩

/-- Modelled from the spec: the current drive_connection is not in the
tree.  Per spec section 4.2, a Connecting connection first queries the
backend socket-level error: still in progress leaves it Connecting with no
teardown and no data flow; a non-zero error tears it down (reported as
IOError); zero moves it to Established and falls through to the data flow
in the same invocation. -/
def drive_connection (c : Conn) (io : DriveIo) (mc mb : Int) : DriveOut :=
  if c.state = .connecting then
    match io.so_err with
    | .inProgress => ⟨0, c, mc, mb⟩
    | .connErr => ⟨-3, c, mc, mb⟩
    | .noErr => drive_data { c with state := .established } io mc mb
  else
    drive_data c io mc mb

/-- metrics.c lines 18-21: incrementing the active gauge also increments
the total counter. -/
def metrics_inc_active_connections (active total : Int) : Int × Int :=
  (active + 1, total + 1)

/-- metrics.c lines 23-25. -/
def metrics_dec_active_connections (active : Int) : Int :=
  active - 1

/-- The state owned by (or observable from) one worker: the connection
records keyed by identity, the worker's active_connections counter, the set
of fds registered in its epoll, and the process-wide metrics counters. -/
structure WorkerSt where
  conns : List (Nat × Conn)
  active_connections : Int
  epoll_fds : List Int
  m_active : Int
  m_total : Int
  m_c2b : Int
  m_b2c : Int
  deriving DecidableEq, Repr

def lookupConn : List (Nat × Conn) → Nat → Option Conn
  | [], _ => none
  | (i, c) :: rest, cid => if i = cid then some c else lookupConn rest cid

def updateConn : List (Nat × Conn) → Nat → Conn → List (Nat × Conn)
  | [], _, _ => []
  | (i, c) :: rest, cid, c' =>
    if i = cid then (i, c') :: rest else (i, c) :: updateConn rest cid c'

/-- epoll_ctl EPOLL_CTL_DEL on a descriptor. -/
def removeFd (l : List Int) (fd : Int) : List Int :=
  l.filter (fun x => decide (x ≠ fd))

/-- Observable log of the worker loop, used to state when the driver ran,
when a connection was actually closed, when the counters were decremented,
and which teardown was logged as an unexpected backend close. -/
inductive TEntry
  | drove (cid : Nat)
  | epochKill (cid : Nat)
  | warnBackendClosed (cid : Nat)
  | closedNow (cid : Nat)
  | dec (cid : Nat)
  deriving DecidableEq, Repr

/-- The teardown sequence of forwarder.c lines 61-74 and 89-103: deregister
both fds from epoll, call close_conn, and iff it returns 1 and the
connection was registered, decrement the active-connections metric and the
worker's counter. -/
def teardown_conn (w : WorkerSt) (cid : Nat) (c : Conn) : WorkerSt × List TEntry :=
  let w1 := { w with epoll_fds := removeFd (removeFd w.epoll_fds c.client_fd) c.backend_fd }
  let r := close_conn c
  if r.1 = 1 then
    let w2 := { w1 with conns := updateConn w1.conns cid r.2 }
    if c.registered then
      ({ w2 with
           m_active := metrics_dec_active_connections w2.m_active,
           active_connections := w2.active_connections - 1 },
       [.closedNow cid, .dec cid])
    else
      (w2, [.closedNow cid])
  else
    (w1, [])

/-- forwarder.c lines 13-20: null out every later event in the batch whose
tag is the given connection. -/
def invalidate_pending_events (evs : List (Option Nat × DriveIo)) (cid : Nat) :
    List (Option Nat × DriveIo) :=
  evs.map (fun e => if e.1 = some cid then (none, e.2) else e)

/-- Writing back the in-place mutations performed by one drive_connection
invocation: the connection record and the two byte counters. -/
def applyDrive (w : WorkerSt) (cid : Nat) (d : DriveOut) : WorkerSt :=
  { w with conns := updateConn w.conns cid d.conn, m_c2b := d.m_c2b, m_b2c := d.m_b2c }

/-- Prepend log entries to the result of processing the remaining batch. -/
def consTrace (es : List TEntry) (r : WorkerSt × List TEntry) : WorkerSt × List TEntry :=
  (r.1, es ++ r.2)

/-- The log entries of one drive-failure teardown (forwarder.c lines
79-103): the driver ran; a -2 result is logged as an unexpected backend
close; then the teardown entries. -/
def failTrace (cid : Nat) (res : Int) (td : List TEntry) : List TEntry :=
  .drove cid :: ((if res = -2 then [.warnBackendClosed cid] else []) ++ td)

/-- forwarder.c lines 44-109: process one event batch.  The epoch was
snapshotted once for the whole batch (line 44) and is the cur_epoch
parameter.  A NULL tag (wakeup pipe or invalidated event) is drained and
skipped.  An epoch mismatch triggers the invalidation sweep and teardown
without driving; a negative driver result triggers the same sweep and
teardown; otherwise the epoll interest is re-derived (which leaves the
state components modelled here unchanged). -/
def process_events (cur_epoch : Int) (w : WorkerSt) :
    List (Option Nat × DriveIo) → WorkerSt × List TEntry
  | [] => (w, [])
  | (none, _) :: rest => process_events cur_epoch w rest
  | (some cid, io) :: rest =>
    match lookupConn w.conns cid with
    | none => process_events cur_epoch w rest
    | some c =>
      if c.epoch_bound ≠ cur_epoch then
        consTrace (.epochKill cid :: (teardown_conn w cid c).2)
          (process_events cur_epoch (teardown_conn w cid c).1
            (invalidate_pending_events rest cid))
      else if (drive_connection c io w.m_c2b w.m_b2c).result < 0 then
        consTrace
          (failTrace cid (drive_connection c io w.m_c2b w.m_b2c).result
            (teardown_conn (applyDrive w cid (drive_connection c io w.m_c2b w.m_b2c)) cid
              (drive_connection c io w.m_c2b w.m_b2c).conn).2)
          (process_events cur_epoch
            (teardown_conn (applyDrive w cid (drive_connection c io w.m_c2b w.m_b2c)) cid
              (drive_connection c io w.m_c2b w.m_b2c).conn).1
            (invalidate_pending_events rest cid))
      else
        consTrace [.drove cid]
          (process_events cur_epoch (applyDrive w cid (drive_connection c io w.m_c2b w.m_b2c))
            rest)
  termination_by l => l.length
  decreasing_by
    all_goals simp [invalidate_pending_events]

/-! ## Acceptor connection registration (main.c lines 266-316) -/

/-- main.c lines 266-274: the Connection as the acceptor allocates it.
calloc zero-fills the record, so closed and registered start false;
main.c sets the fds, the epoch stamp and the state and never assigns
registered. -/
def acceptor_make_conn (cur_epoch : Int) (rc_zero : Bool)
    (cfd bfd p1r p1w p2r p2w : Int) : Conn :=
  { client_fd := cfd, backend_fd := bfd,
    epoch_bound := cur_epoch,
    closed := false,
    registered := false,
    c2b_pipe_r := p1r, c2b_pipe_w := p1w,
    b2c_pipe_r := p2r, b2c_pipe_w := p2w,
    state := if rc_zero then .established else .connecting }

/-- main.c lines 293-316: register both fds in the chosen worker's epoll,
atomically increment the worker's counter and the active-connections
metric (which also bumps the total counter), and wake the worker. -/
def acceptor_register (w : WorkerSt) (cid : Nat) (c : Conn) : WorkerSt :=
  let w1 := { w with conns := (cid, c) :: w.conns,
                     epoll_fds := c.backend_fd :: c.client_fd :: w.epoll_fds }
  let mi := metrics_inc_active_connections w1.m_active w1.m_total
  { w1 with active_connections := w1.active_connections + 1,
            m_active := mi.1, m_total := mi.2 }

/-- The number of Connection records with registered set and closed unset:
per the spec, the value the active-connections metric must equal at a
quiescent point. -/
def registered_open_count (w : WorkerSt) : Nat :=
  (w.conns.filter (fun pc => pc.2.registered && !pc.2.closed)).length

/-! ## Lemmas about the embedded definitions -/


/-! ## Lookup and update lemmas -/

theorem lookupConn_updateConn_self {l : List (Nat × Conn)} {cid : Nat} {c c' : Conn}
    (h : lookupConn l cid = some c) :
    lookupConn (updateConn l cid c') cid = some c' := by
  induction l with
  | nil => simp [lookupConn] at h
  | cons hd tl ih =>
    obtain ⟨i, cc⟩ := hd
    by_cases hi : i = cid
    · subst hi; simp [lookupConn, updateConn]
    · simp [lookupConn, updateConn, hi] at h ⊢
      exact ih h

theorem lookupConn_updateConn_ne {l : List (Nat × Conn)} {cid cid' : Nat} {c' : Conn}
    (h : cid ≠ cid') :
    lookupConn (updateConn l cid' c') cid = lookupConn l cid := by
  induction l with
  | nil => simp [updateConn]
  | cons hd tl ih =>
    obtain ⟨i, cc⟩ := hd
    by_cases hi : i = cid'
    · subst hi
      simp [lookupConn, updateConn, Ne.symm h]
    · by_cases hic : i = cid
      · subst hic; simp [lookupConn, updateConn, hi]
      · simp [lookupConn, updateConn, hi, hic]
        exact ih

/-! ## close_conn, teardown_conn and drive_connection facts -/

theorem close_conn_of_closed {c : Conn} (h : c.closed = true) : close_conn c = (0, c) := by
  simp [close_conn, h]

theorem close_conn_snd_epoch_bound {c : Conn} :
    (close_conn c).2.epoch_bound = c.epoch_bound := by
  by_cases h : c.closed = true <;> simp [close_conn, h]

theorem close_conn_snd_registered {c : Conn} :
    (close_conn c).2.registered = c.registered := by
  by_cases h : c.closed = true <;> simp [close_conn, h]

theorem close_conn_snd_closed {c : Conn} (h : c.closed = false) :
    (close_conn c).2.closed = true := by
  simp [close_conn, h]

theorem teardown_conn_closed (w : WorkerSt) (cid : Nat) {c : Conn} (hc : c.closed = true) :
    (teardown_conn w cid c).1.conns = w.conns ∧ (teardown_conn w cid c).2 = [] := by
  simp [teardown_conn, close_conn, hc]

theorem teardown_conn_conns_ne {w : WorkerSt} {cid cid' : Nat} {c' : Conn} (h : cid ≠ cid') :
    lookupConn (teardown_conn w cid' c').1.conns cid = lookupConn w.conns cid := by
  by_cases hc : c'.closed = true
  · simp [teardown_conn, close_conn, hc]
  · by_cases hr : c'.registered = true <;>
      simp [teardown_conn, close_conn, hc, hr, lookupConn_updateConn_ne h]

theorem teardown_conn_conns_self {w : WorkerSt} {cid : Nat} {c' : Conn}
    (h : lookupConn w.conns cid = some c') :
    ∃ c'', lookupConn (teardown_conn w cid c').1.conns cid = some c'' ∧
      c''.epoch_bound = c'.epoch_bound ∧ c''.registered = c'.registered ∧
      c''.closed = true ∧ (c'.closed = true → c'' = c') := by
  by_cases hc : c'.closed = true
  · refine ⟨c', ?_, rfl, rfl, hc, fun _ => rfl⟩
    simpa [teardown_conn, close_conn, hc] using h
  · have hc' : c'.closed = false := by simpa using hc
    refine ⟨(close_conn c').2, ?_, close_conn_snd_epoch_bound, close_conn_snd_registered,
      close_conn_snd_closed hc', fun hcl => by simp [hcl] at hc'⟩
    by_cases hr : c'.registered = true <;>
      simp [teardown_conn, close_conn, hc', hr, lookupConn_updateConn_self h]

theorem teardown_conn_trace_cases (w : WorkerSt) (cid : Nat) (c : Conn) :
    (teardown_conn w cid c).2 = [] ∨ (teardown_conn w cid c).2 = [.closedNow cid] ∨
    (teardown_conn w cid c).2 = [.closedNow cid, .dec cid] := by
  by_cases hc : c.closed = true
  · left; simp [teardown_conn, close_conn, hc]
  · by_cases hr : c.registered = true
    · right; right; simp [teardown_conn, close_conn, hc, hr]
    · right; left; simp [teardown_conn, close_conn, hc, hr]

theorem drive_data_conn (c : Conn) (io : DriveIo) (mc mb : Int) :
    (drive_data c io mc mb).conn = c := by
  rcases io with ⟨se, ci, co, bi, bo⟩
  cases ci <;> cases co <;> cases bi <;> cases bo <;> simp [drive_data]

theorem drive_connection_conn (c : Conn) (io : DriveIo) (mc mb : Int) :
    (drive_connection c io mc mb).conn = c ∨
    (drive_connection c io mc mb).conn = { c with state := .established } := by
  by_cases hs : c.state = .connecting
  · cases hse : io.so_err <;> simp [drive_connection, hs, hse, drive_data_conn]
  · simp [drive_connection, hs, drive_data_conn]

theorem drive_connection_conn_closed (c : Conn) (io : DriveIo) (mc mb : Int) :
    (drive_connection c io mc mb).conn.closed = c.closed := by
  rcases drive_connection_conn c io mc mb with h | h <;> simp [h]

theorem drive_connection_conn_epoch_bound (c : Conn) (io : DriveIo) (mc mb : Int) :
    (drive_connection c io mc mb).conn.epoch_bound = c.epoch_bound := by
  rcases drive_connection_conn c io mc mb with h | h <;> simp [h]

theorem applyDrive_lookup_ne {w : WorkerSt} {cid cid' : Nat} {d : DriveOut} (h : cid ≠ cid') :
    lookupConn (applyDrive w cid' d).conns cid = lookupConn w.conns cid := by
  simp [applyDrive, lookupConn_updateConn_ne h]

theorem applyDrive_lookup_self {w : WorkerSt} {cid : Nat} {c : Conn} (d : DriveOut)
    (h : lookupConn w.conns cid = some c) :
    lookupConn (applyDrive w cid d).conns cid = some d.conn := by
  simp [applyDrive, lookupConn_updateConn_self h]

/-! ## Invalidation sweep facts -/

theorem mem_invalidate_of_ne {evs : List (Option Nat × DriveIo)} {cid cid2 : Nat} {io : DriveIo}
    (h : ((some cid : Option Nat), io) ∈ evs) (hne : cid ≠ cid2) :
    ((some cid : Option Nat), io) ∈ invalidate_pending_events evs cid2 := by
  unfold invalidate_pending_events
  refine List.mem_map.mpr ⟨(some cid, io), h, ?_⟩
  simp [hne]

theorem not_mem_invalidate_self {evs : List (Option Nat × DriveIo)} {cid : Nat} {io : DriveIo} :
    ((some cid : Option Nat), io) ∉ invalidate_pending_events evs cid := by
  unfold invalidate_pending_events
  intro h
  obtain ⟨e, -, he⟩ := List.mem_map.mp h
  rcases e with ⟨oc, io2⟩
  by_cases h1 : oc = some cid
  · simp [h1] at he
  · simp [h1] at he

/-- Number of occurrences of one log entry. -/
def countT (t : TEntry) (l : List TEntry) : Nat :=
  (l.filter (fun x => decide (x = t))).length

theorem countT_nil (t : TEntry) : countT t [] = 0 := rfl

theorem countT_cons (t a : TEntry) (l : List TEntry) :
    countT t (a :: l) = (if a = t then 1 else 0) + countT t l := by
  by_cases h : a = t <;> simp [countT, h, Nat.add_comm]

theorem countT_append (t : TEntry) (l1 l2 : List TEntry) :
    countT t (l1 ++ l2) = countT t l1 + countT t l2 := by
  simp [countT, List.filter_append]

theorem pe_drove_not_mem (cur : Int) (cid : Nat) :
    ∀ w evs, (∀ c, lookupConn w.conns cid = some c → c.epoch_bound ≠ cur) →
      TEntry.drove cid ∉ (process_events cur w evs).2 := by
  intro w evs
  induction w, evs using process_events.induct cur with
  | case1 w => intro _h; simp [process_events]
  | case2 w io rest ih => intro h; simp only [process_events]; exact ih h
  | case3 w cid' io rest hlook ih => intro h; simp only [process_events, hlook]; exact ih h
  | case4 w cid' io rest c hlook hep ih =>
    intro h
    simp only [process_events, hlook, if_pos hep, consTrace]
    have hpres : ∀ c0, lookupConn (teardown_conn w cid' c).1.conns cid = some c0 →
        c0.epoch_bound ≠ cur := by
      by_cases hcc : cid = cid'
      · subst hcc
        obtain ⟨c'', hl, hepb, -, -, -⟩ := teardown_conn_conns_self hlook
        intro c0 h0
        rw [hl] at h0
        injection h0 with h0
        rw [h0] at hepb
        rw [hepb]
        exact h c hlook
      · intro c0 h0
        rw [teardown_conn_conns_ne hcc] at h0
        exact h c0 h0
    have hq := ih hpres
    rcases teardown_conn_trace_cases w cid' c with ht | ht | ht <;> simp [ht, hq]
  | case5 w cid' io rest c hlook hep hres ih =>
    intro h
    by_cases hcc : cid = cid'
    · subst hcc; exact absurd (h c hlook) hep
    · simp only [process_events, hlook, if_neg hep, if_pos hres, consTrace, failTrace]
      have hpres : ∀ c0,
          lookupConn (teardown_conn (applyDrive w cid' (drive_connection c io w.m_c2b w.m_b2c))
            cid' (drive_connection c io w.m_c2b w.m_b2c).conn).1.conns cid = some c0 →
          c0.epoch_bound ≠ cur := by
        intro c0 h0
        rw [teardown_conn_conns_ne hcc, applyDrive_lookup_ne hcc] at h0
        exact h c0 h0
      have hq := ih hpres
      rcases teardown_conn_trace_cases (applyDrive w cid' (drive_connection c io w.m_c2b w.m_b2c))
          cid' (drive_connection c io w.m_c2b w.m_b2c).conn with ht | ht | ht <;>
        by_cases h2 : (drive_connection c io w.m_c2b w.m_b2c).result = -2 <;>
          simp [ht, h2, hq, hcc]
  | case6 w cid' io rest c hlook hep hres ih =>
    intro h
    by_cases hcc : cid = cid'
    · subst hcc; exact absurd (h c hlook) hep
    · simp only [process_events, hlook, if_neg hep, if_neg hres, consTrace]
      have hpres : ∀ c0,
          lookupConn (applyDrive w cid' (drive_connection c io w.m_c2b w.m_b2c)).conns cid
            = some c0 → c0.epoch_bound ≠ cur := by
        intro c0 h0
        rw [applyDrive_lookup_ne hcc] at h0
        exact h c0 h0
      have hq := ih hpres
      simp [hq, hcc]

theorem pe_closed_stays (cur : Int) (cid : Nat) :
    ∀ w evs c, lookupConn w.conns cid = some c → c.closed = true →
      ∃ c', lookupConn (process_events cur w evs).1.conns cid = some c' ∧ c'.closed = true := by
  intro w evs
  induction w, evs using process_events.induct cur with
  | case1 w => intro c h hc; exact ⟨c, by simpa [process_events] using h, hc⟩
  | case2 w io rest ih => intro c h hc; simp only [process_events]; exact ih c h hc
  | case3 w cid' io rest hlook ih =>
    intro c h hc; simp only [process_events, hlook]; exact ih c h hc
  | case4 w cid' io rest c' hlook hep ih =>
    intro c h hc
    simp only [process_events, hlook, if_pos hep, consTrace]
    by_cases hcc : cid = cid'
    · subst hcc
      rw [h] at hlook
      injection hlook with hlook
      have hcl : c'.closed = true := by rw [← hlook]; exact hc
      obtain ⟨hconns, -⟩ := teardown_conn_closed w cid hcl
      refine ih c ?_ hc
      rw [hconns]; exact h
    · refine ih c ?_ hc
      rw [teardown_conn_conns_ne hcc]; exact h
  | case5 w cid' io rest c' hlook hep hres ih =>
    intro c h hc
    simp only [process_events, hlook, if_neg hep, if_pos hres, consTrace]
    by_cases hcc : cid = cid'
    · subst hcc
      rw [h] at hlook
      injection hlook with hlook
      subst hlook
      have hdc : (drive_connection c io w.m_c2b w.m_b2c).conn.closed = true := by
        rw [drive_connection_conn_closed]; exact hc
      obtain ⟨hconns, -⟩ := teardown_conn_closed
        (applyDrive w cid (drive_connection c io w.m_c2b w.m_b2c)) cid hdc
      refine ih (drive_connection c io w.m_c2b w.m_b2c).conn ?_ hdc
      rw [hconns]
      exact applyDrive_lookup_self _ h
    · refine ih c ?_ hc
      rw [teardown_conn_conns_ne hcc, applyDrive_lookup_ne hcc]; exact h
  | case6 w cid' io rest c' hlook hep hres ih =>
    intro c h hc
    simp only [process_events, hlook, if_neg hep, if_neg hres, consTrace]
    by_cases hcc : cid = cid'
    · subst hcc
      rw [h] at hlook
      injection hlook with hlook
      subst hlook
      have hdc : (drive_connection c io w.m_c2b w.m_b2c).conn.closed = true := by
        rw [drive_connection_conn_closed]; exact hc
      exact ih (drive_connection c io w.m_c2b w.m_b2c).conn (applyDrive_lookup_self _ h) hdc
    · refine ih c ?_ hc
      rw [applyDrive_lookup_ne hcc]; exact h

theorem pe_counts_zero_of_closed (cur : Int) (cid : Nat) :
    ∀ w evs, (∀ c, lookupConn w.conns cid = some c → c.closed = true) →
      countT (.closedNow cid) (process_events cur w evs).2 = 0 ∧
      countT (.dec cid) (process_events cur w evs).2 = 0 := by
  intro w evs
  induction w, evs using process_events.induct cur with
  | case1 w => intro _h; simp [process_events, countT_nil]
  | case2 w io rest ih => intro h; simp only [process_events]; exact ih h
  | case3 w cid' io rest hlook ih => intro h; simp only [process_events, hlook]; exact ih h
  | case4 w cid' io rest c' hlook hep ih =>
    intro h
    simp only [process_events, hlook, if_pos hep, consTrace]
    by_cases hcc : cid = cid'
    · subst hcc
      have hcl : c'.closed = true := h c' hlook
      obtain ⟨hconns, htr⟩ := teardown_conn_closed w cid hcl
      have hq := ih (by rw [hconns]; exact h)
      simp [htr, countT_cons, countT_append, hq.1, hq.2]
    · have hq := ih (by intro c0 h0; rw [teardown_conn_conns_ne hcc] at h0; exact h c0 h0)
      rcases teardown_conn_trace_cases w cid' c' with ht | ht | ht <;>
        simp [ht, countT_cons, countT_append, countT_nil, hq.1, hq.2, Ne.symm hcc, hcc]
  | case5 w cid' io rest c' hlook hep hres ih =>
    intro h
    simp only [process_events, hlook, if_neg hep, if_pos hres, consTrace, failTrace]
    by_cases hcc : cid = cid'
    · subst hcc
      have hcl : c'.closed = true := h c' hlook
      have hdc : (drive_connection c' io w.m_c2b w.m_b2c).conn.closed = true := by
        rw [drive_connection_conn_closed]; exact hcl
      obtain ⟨hconns, htr⟩ := teardown_conn_closed
        (applyDrive w cid (drive_connection c' io w.m_c2b w.m_b2c)) cid hdc
      have hq := ih (by
        intro c0 h0
        rw [hconns, applyDrive_lookup_self _ hlook] at h0
        injection h0 with h0
        rw [← h0]
        exact hdc)
      by_cases h2 : (drive_connection c' io w.m_c2b w.m_b2c).result = -2 <;>
        simp [htr, h2, countT_cons, countT_append, countT_nil, hq.1, hq.2]
    · have hq := ih (by
        intro c0 h0
        rw [teardown_conn_conns_ne hcc, applyDrive_lookup_ne hcc] at h0
        exact h c0 h0)
      rcases teardown_conn_trace_cases (applyDrive w cid' (drive_connection c' io w.m_c2b w.m_b2c))
          cid' (drive_connection c' io w.m_c2b w.m_b2c).conn with ht | ht | ht <;>
        by_cases h2 : (drive_connection c' io w.m_c2b w.m_b2c).result = -2 <;>
          simp [ht, h2, countT_cons, countT_append, countT_nil, hq.1, hq.2, Ne.symm hcc, hcc]
  | case6 w cid' io rest c' hlook hep hres ih =>
    intro h
    simp only [process_events, hlook, if_neg hep, if_neg hres, consTrace]
    by_cases hcc : cid = cid'
    · subst hcc
      have hcl : c'.closed = true := h c' hlook
      have hdc : (drive_connection c' io w.m_c2b w.m_b2c).conn.closed = true := by
        rw [drive_connection_conn_closed]; exact hcl
      have hq := ih (by
        intro c0 h0
        rw [applyDrive_lookup_self _ hlook] at h0
        injection h0 with h0
        rw [← h0]
        exact hdc)
      simp [countT_cons, countT_append, countT_nil, hq.1, hq.2]
    · have hq := ih (by intro c0 h0; rw [applyDrive_lookup_ne hcc] at h0; exact h c0 h0)
      simp [countT_cons, countT_append, countT_nil, hq.1, hq.2]

theorem pe_counts_le_one (cur : Int) (cid : Nat) :
    ∀ w evs, countT (.closedNow cid) (process_events cur w evs).2 ≤ 1 ∧
      countT (.dec cid) (process_events cur w evs).2 ≤ 1 := by
  intro w evs
  induction w, evs using process_events.induct cur with
  | case1 w => simp [process_events, countT_nil]
  | case2 w io rest ih => simp only [process_events]; exact ih
  | case3 w cid' io rest hlook ih => simp only [process_events, hlook]; exact ih
  | case4 w cid' io rest c' hlook hep ih =>
    simp only [process_events, hlook, if_pos hep, consTrace]
    by_cases hcc : cid = cid'
    · subst hcc
      by_cases hcl : c'.closed = true
      · obtain ⟨-, htr⟩ := teardown_conn_closed w cid hcl
        simp [htr, countT_cons, countT_append, countT_nil, ih.1, ih.2]
      · obtain ⟨c'', hl, -, -, hc'', -⟩ := teardown_conn_conns_self hlook
        have hz := pe_counts_zero_of_closed cur cid (teardown_conn w cid c').1
          (invalidate_pending_events rest cid) (by
            intro c0 h0
            rw [hl] at h0
            injection h0 with h0
            rw [← h0]
            exact hc'')
        rcases teardown_conn_trace_cases w cid c' with ht | ht | ht <;>
          simp [ht, countT_cons, countT_append, countT_nil, hz.1, hz.2]
    · have hq := ih
      rcases teardown_conn_trace_cases w cid' c' with ht | ht | ht <;>
        simp [ht, countT_cons, countT_append, countT_nil, hq.1, hq.2, Ne.symm hcc, hcc]
  | case5 w cid' io rest c' hlook hep hres ih =>
    simp only [process_events, hlook, if_neg hep, if_pos hres, consTrace, failTrace]
    by_cases hcc : cid = cid'
    · subst hcc
      by_cases hcl : (drive_connection c' io w.m_c2b w.m_b2c).conn.closed = true
      · obtain ⟨-, htr⟩ := teardown_conn_closed
          (applyDrive w cid (drive_connection c' io w.m_c2b w.m_b2c)) cid hcl
        by_cases h2 : (drive_connection c' io w.m_c2b w.m_b2c).result = -2 <;>
          simp [htr, h2, countT_cons, countT_append, countT_nil, ih.1, ih.2]
      · obtain ⟨c'', hl, -, -, hc'', -⟩ := teardown_conn_conns_self
          (applyDrive_lookup_self (drive_connection c' io w.m_c2b w.m_b2c) hlook)
        have hz := pe_counts_zero_of_closed cur cid
          (teardown_conn (applyDrive w cid (drive_connection c' io w.m_c2b w.m_b2c)) cid
            (drive_connection c' io w.m_c2b w.m_b2c).conn).1
          (invalidate_pending_events rest cid) (by
            intro c0 h0
            rw [hl] at h0
            injection h0 with h0
            rw [← h0]
            exact hc'')
        rcases teardown_conn_trace_cases (applyDrive w cid (drive_connection c' io w.m_c2b w.m_b2c))
            cid (drive_connection c' io w.m_c2b w.m_b2c).conn with ht | ht | ht <;>
          by_cases h2 : (drive_connection c' io w.m_c2b w.m_b2c).result = -2 <;>
            simp [ht, h2, countT_cons, countT_append, countT_nil, hz.1, hz.2]
    · have hq := ih
      rcases teardown_conn_trace_cases (applyDrive w cid' (drive_connection c' io w.m_c2b w.m_b2c))
          cid' (drive_connection c' io w.m_c2b w.m_b2c).conn with ht | ht | ht <;>
        by_cases h2 : (drive_connection c' io w.m_c2b w.m_b2c).result = -2 <;>
          simp [ht, h2, countT_cons, countT_append, countT_nil, hq.1, hq.2, Ne.symm hcc, hcc]
  | case6 w cid' io rest c' hlook hep hres ih =>
    simp only [process_events, hlook, if_neg hep, if_neg hres, consTrace]
    simp [countT_cons, countT_append, countT_nil, ih.1, ih.2]

theorem pe_epochKill_mem (cur : Int) (cid : Nat) (io0 : DriveIo) :
    ∀ w evs c, lookupConn w.conns cid = some c → c.epoch_bound ≠ cur →
      ((some cid : Option Nat), io0) ∈ evs →
      TEntry.epochKill cid ∈ (process_events cur w evs).2 ∧
      (c.closed = false →
        ∃ c', lookupConn (process_events cur w evs).1.conns cid = some c' ∧
          c'.closed = true) := by
  intro w evs
  induction w, evs using process_events.induct cur with
  | case1 w => intro c h hc hm; simp at hm
  | case2 w io rest ih =>
    intro c h hc hm
    simp only [process_events]
    refine ih c h hc ?_
    rcases List.mem_cons.mp hm with he | he
    · simp at he
    · exact he
  | case3 w cid' io rest hlook ih =>
    intro c h hc hm
    by_cases hcc : cid = cid'
    · subst hcc; rw [h] at hlook; cases hlook
    · simp only [process_events, hlook]
      refine ih c h hc ?_
      rcases List.mem_cons.mp hm with he | he
      · rw [Prod.mk.injEq] at he
        exact absurd (Option.some.inj he.1) hcc
      · exact he
  | case4 w cid' io rest c' hlook hep ih =>
    intro c h hc hm
    simp only [process_events, hlook, if_pos hep, consTrace]
    by_cases hcc : cid = cid'
    · subst hcc
      rw [h] at hlook
      injection hlook with hlook
      constructor
      · simp
      · intro hcf
        have hcf' : c'.closed = false := by rw [← hlook]; exact hcf
        obtain ⟨c'', hl, -, -, hc'', -⟩ := teardown_conn_conns_self
          (show lookupConn w.conns cid = some c' by rw [h, hlook])
        exact pe_closed_stays cur cid (teardown_conn w cid c').1
          (invalidate_pending_events rest cid) c'' hl hc''
    · have hm' : ((some cid : Option Nat), io0) ∈ rest := by
        rcases List.mem_cons.mp hm with he | he
        · rw [Prod.mk.injEq] at he
          exact absurd (Option.some.inj he.1) hcc
        · exact he
      have hpre : lookupConn (teardown_conn w cid' c').1.conns cid = some c := by
        rw [teardown_conn_conns_ne hcc]; exact h
      obtain ⟨h1, h2⟩ := ih c hpre hc (mem_invalidate_of_ne hm' hcc)
      exact ⟨by simp [h1], h2⟩
  | case5 w cid' io rest c' hlook hep hres ih =>
    intro c h hc hm
    by_cases hcc : cid = cid'
    · subst hcc
      rw [h] at hlook
      injection hlook with hlook
      rw [← hlook] at hep
      exact absurd hc hep
    · simp only [process_events, hlook, if_neg hep, if_pos hres, consTrace, failTrace]
      have hm' : ((some cid : Option Nat), io0) ∈ rest := by
        rcases List.mem_cons.mp hm with he | he
        · rw [Prod.mk.injEq] at he
          exact absurd (Option.some.inj he.1) hcc
        · exact he
      have hpre : lookupConn (teardown_conn
          (applyDrive w cid' (drive_connection c' io w.m_c2b w.m_b2c)) cid'
          (drive_connection c' io w.m_c2b w.m_b2c).conn).1.conns cid = some c := by
        rw [teardown_conn_conns_ne hcc, applyDrive_lookup_ne hcc]; exact h
      obtain ⟨h1, h2⟩ := ih c hpre hc (mem_invalidate_of_ne hm' hcc)
      exact ⟨by simp [h1], h2⟩
  | case6 w cid' io rest c' hlook hep hres ih =>
    intro c h hc hm
    by_cases hcc : cid = cid'
    · subst hcc
      rw [h] at hlook
      injection hlook with hlook
      rw [← hlook] at hep
      exact absurd hc hep
    · simp only [process_events, hlook, if_neg hep, if_neg hres, consTrace]
      have hm' : ((some cid : Option Nat), io0) ∈ rest := by
        rcases List.mem_cons.mp hm with he | he
        · rw [Prod.mk.injEq] at he
          exact absurd (Option.some.inj he.1) hcc
        · exact he
      have hpre : lookupConn (applyDrive w cid' (drive_connection c' io w.m_c2b w.m_b2c)).conns
          cid = some c := by
        rw [applyDrive_lookup_ne hcc]; exact h
      obtain ⟨h1, h2⟩ := ih c hpre hc hm'
      exact ⟨by simp [h1], h2⟩


/-! ## Claim theorems -/


/-! ## Concrete states and inputs used in closed statements -/

/-- Data-flow inputs where both directions report would-block. -/
def ioQuiet : DriveIo := ⟨.noErr, .nodata, .ok, .nodata, .ok⟩

/-- Data-flow inputs where the client socket reports EOF. -/
def ioClientEof : DriveIo := ⟨.noErr, .eof, .ok, .nodata, .ok⟩

/-- Data-flow inputs where the backend socket reports EOF. -/
def ioBackendEof : DriveIo := ⟨.noErr, .nodata, .ok, .eof, .ok⟩

/-- A fresh worker. -/
def w_empty : WorkerSt := ⟨[], 0, [], 0, 0, 0, 0⟩

/-- A connection as the acceptor creates it (epoch 0, immediate connect). -/
def conn_ex : Conn := acceptor_make_conn 0 true 3 4 5 6 7 8

/-- The worker after the acceptor hands conn_ex over. -/
def w_reg : WorkerSt := acceptor_register w_empty 0 conn_ex

/-- An established connection stamped with epoch 1. -/
def conn_stale : Conn :=
  { client_fd := 3, backend_fd := 4, epoch_bound := 1, closed := false,
    registered := true, c2b_pipe_r := 5, c2b_pipe_w := 6, b2c_pipe_r := 7,
    b2c_pipe_w := 8, state := .established }

/-- A worker owning conn_stale. -/
def w_stale : WorkerSt := ⟨[(0, conn_stale)], 1, [3, 4], 1, 1, 0, 0⟩

/-- An already-closed connection record (fds released, counted once). -/
def conn_closed_ex : Conn :=
  { client_fd := -1, backend_fd := -1, epoch_bound := 0, closed := true,
    registered := true, c2b_pipe_r := -1, c2b_pipe_w := -1, b2c_pipe_r := -1,
    b2c_pipe_w := -1, state := .established }

/-- A worker still holding the leaked record of conn_closed_ex. -/
def w_closed_ex : WorkerSt := ⟨[(0, conn_closed_ex)], 0, [], 1, 1, 0, 0⟩

def addr_a : SockAddr := ⟨AF_INET, 5432, [10, 0, 0, 1]⟩
def target_a : TargetAddr := ⟨addr_a, 16, true⟩
def cand_a : Candidate := ⟨target_a⟩

def addr_b : SockAddr := ⟨AF_INET, 5432, [10, 0, 0, 2]⟩
def target_b : TargetAddr := ⟨addr_b, 16, true⟩

/-- C1: the acceptor increments the worker counter and the
active-connections metric but never sets registered (main.c lines 311-316
have no assignment to nc->registered), so the teardown in forwarder.c
(lines 93-103), which decrements iff registered, never decrements: after
accepting one connection the metric is 1 while zero records have
registered set, and after the teardown the metric still is 1 and no dec
was logged, contradicting the claimed invariant. -/
theorem acceptor_omits_registered_metric_diverges :
    (∀ (cur : Int) (rc : Bool) (cfd bfd p1r p1w p2r p2w : Int),
      (acceptor_make_conn cur rc cfd bfd p1r p1w p2r p2w).registered = false)
    ∧ w_reg.m_active = 1
    ∧ registered_open_count w_reg = 0
    ∧ (process_events 0 w_reg [(some 0, ioClientEof)]).1.m_active = 1
    ∧ (process_events 0 w_reg [(some 0, ioClientEof)]).1.active_connections = 1
    ∧ registered_open_count (process_events 0 w_reg [(some 0, ioClientEof)]).1 = 0
    ∧ TEntry.closedNow 0 ∈ (process_events 0 w_reg [(some 0, ioClientEof)]).2
    ∧ TEntry.dec 0 ∉ (process_events 0 w_reg [(some 0, ioClientEof)]).2 := by
  refine ⟨fun cur rc cfd bfd p1r p1w p2r p2w => rfl, ?_, ?_, ?_, ?_, ?_, ?_, ?_⟩ <;>
    simp [w_reg, w_empty, conn_ex, acceptor_register, acceptor_make_conn,
      metrics_inc_active_connections, registered_open_count, process_events, lookupConn,
      updateConn, drive_connection, drive_data, metrics_add_bytes_c2b, metrics_add_bytes_b2c,
      splice_in_ret, ioClientEof, applyDrive, consTrace, failTrace, teardown_conn, close_conn,
      metrics_dec_active_connections, removeFd, invalidate_pending_events]

/-- C2: the worker snapshots the epoch once per batch (the cur_epoch
argument of process_events, forwarder.c line 44); a connection whose
epoch_bound differs from that snapshot is never driven in the batch, the
first event for it triggers the invalidation sweep and tears it down, and
the sweep nulls every later event of the same batch pointing at the same
connection. -/
theorem epoch_mismatch_invalidation_sweep :
    (∀ (cur : Int) (w : WorkerSt) (evs : List (Option Nat × DriveIo)) (cid : Nat) (c : Conn),
      lookupConn w.conns cid = some c → c.epoch_bound ≠ cur →
      TEntry.drove cid ∉ (process_events cur w evs).2)
    ∧ (∀ (cur : Int) (w : WorkerSt) (evs : List (Option Nat × DriveIo)) (cid : Nat) (c : Conn)
        (io : DriveIo),
      lookupConn w.conns cid = some c → c.epoch_bound ≠ cur →
      ((some cid : Option Nat), io) ∈ evs →
      TEntry.epochKill cid ∈ (process_events cur w evs).2 ∧
      (c.closed = false →
        ∃ c', lookupConn (process_events cur w evs).1.conns cid = some c' ∧
          c'.closed = true))
    ∧ (∀ (evs : List (Option Nat × DriveIo)) (cid : Nat) (io : DriveIo),
      ((some cid : Option Nat), io) ∉ invalidate_pending_events evs cid) := by
  refine ⟨?_, ?_, ?_⟩
  · intro cur w evs cid c h hep
    refine pe_drove_not_mem cur cid w evs ?_
    intro c0 h0
    rw [h] at h0
    injection h0 with h0
    rw [← h0]
    exact hep
  · intro cur w evs cid c io h hep hm
    exact pe_epochKill_mem cur cid io w evs c h hep hm
  · intro evs cid io
    exact not_mem_invalidate_self

/-- Witness for C2 at a concrete stale connection (epoch_bound 1, batch
snapshot 0). -/
theorem epoch_mismatch_invalidation_sweep_witness :
    TEntry.drove 0 ∉ (process_events 0 w_stale [(some 0, ioQuiet)]).2 ∧
    TEntry.epochKill 0 ∈ (process_events 0 w_stale [(some 0, ioQuiet)]).2 ∧
    (∃ c', lookupConn (process_events 0 w_stale [(some 0, ioQuiet)]).1.conns 0 = some c' ∧
      c'.closed = true) ∧
    ((some 0 : Option Nat), ioQuiet) ∉
      invalidate_pending_events [((some 0 : Option Nat), ioQuiet)] 0 := by
  have h1 := epoch_mismatch_invalidation_sweep.1 0 w_stale [(some 0, ioQuiet)] 0 conn_stale
    (by simp [w_stale, lookupConn]) (by simp [conn_stale])
  have h2 := epoch_mismatch_invalidation_sweep.2.1 0 w_stale [(some 0, ioQuiet)] 0 conn_stale
    ioQuiet (by simp [w_stale, lookupConn]) (by simp [conn_stale]) (by simp)
  have h3 := epoch_mismatch_invalidation_sweep.2.2 [((some 0 : Option Nat), ioQuiet)] 0 ioQuiet
  exact ⟨h1, h2.1, h2.2 (by simp [conn_stale]), h3⟩

/-- C3 counterexample: the exact byte sequence stated by the claim (with
length byte 0x5f) is not what send_pg_error produces for the no-primary
message. -/
theorem no_primary_frame_length_byte_counterexample :
    send_pg_error noPrimaryMsg ≠ specClaimedNoPrimaryBytes := by decide

/-- C3 as amended: the frame for the no-primary message is the claimed
sequence with the length field 0x0000003c (60 = 4 bytes of length plus 56
field bytes) instead of 0x0000005f. -/
theorem no_primary_frame_bytes :
    send_pg_error noPrimaryMsg = actualNoPrimaryBytes := by decide

theorem health_publish_epoch_le (cands : List Candidate) (ok : Bool) (nt : TargetAddr)
    (st : PrimarySt) : st.g_epoch ≤ (health_publish cands ok nt st).1.g_epoch := by
  simp only [health_publish]
  split_ifs <;> simp

theorem run_cycles_epoch_le :
    ∀ (inps : List (Bool × TargetAddr)) (cands : List Candidate) (st : PrimarySt),
      st.g_epoch ≤ (run_cycles cands st inps).g_epoch := by
  intro inps
  induction inps with
  | nil => intro cands st; simp [run_cycles]
  | cons i rest ih =>
    intro cands st
    calc st.g_epoch ≤ (health_publish cands i.1 i.2 st).1.g_epoch :=
          health_publish_epoch_le cands i.1 i.2 st
      _ ≤ (run_cycles cands (health_publish cands i.1 i.2 st).1 rest).g_epoch :=
          ih cands (health_publish cands i.1 i.2 st).1
      _ = (run_cycles cands st (i :: rest)).g_epoch := by rw [run_cycles]

/-- C4: one publication step (health_check.c lines 250-282) never decreases
the epoch; it adds exactly one iff the published primary_idx changes
(including transitions to and from -1) and leaves it unchanged otherwise;
and the epoch is non-decreasing over any sequence of cycles.  These two
fetch-adds are the only writes to g_epoch in the program. -/
theorem epoch_monotone_increment_iff_primary_change :
    ∀ (cands : List Candidate) (ok : Bool) (nt : TargetAddr) (st : PrimarySt),
      st.g_epoch ≤ (health_publish cands ok nt st).1.g_epoch
      ∧ ((health_publish cands ok nt st).1.g_primary_idx ≠ st.g_primary_idx ↔
          (health_publish cands ok nt st).1.g_epoch = st.g_epoch + 1)
      ∧ ((health_publish cands ok nt st).1.g_primary_idx = st.g_primary_idx ↔
          (health_publish cands ok nt st).1.g_epoch = st.g_epoch)
      ∧ ∀ inps, st.g_epoch ≤ (run_cycles cands st inps).g_epoch := by
  intro cands ok nt st
  refine ⟨health_publish_epoch_le cands ok nt st, ?_, ?_,
    fun inps => run_cycles_epoch_le inps cands st⟩ <;>
  · simp only [health_publish]
    split_ifs <;> simp_all
    all_goals omega

/-- C5 counterexample: the worker does not skip a batch event for a
connection whose closed flag is already set — forwarder.c lines 46-108
contain no closed check, so the event is epoch-checked and then driven:
with the record of conn_closed_ex still tagged in the batch,
drive_connection runs on it. -/
theorem closed_conn_event_driven_counterexample :
    TEntry.drove 0 ∈ (process_events 0 w_closed_ex [(some 0, ioQuiet)]).2 := by
  simp [process_events, w_closed_ex, conn_closed_ex, lookupConn, drive_connection, drive_data,
    metrics_add_bytes_c2b, metrics_add_bytes_b2c, splice_in_ret, ioQuiet, applyDrive,
    consTrace, failTrace, updateConn]

/-- C5 as amended: the closed flag serializes teardown in close_conn (the
first call on an open connection returns 1 and marks closed; a call on a
closed connection returns 0 and changes nothing), the invalidation sweep
nulls every later same-batch event of a torn-down connection, and in any
batch the close and the counter decrement of the teardown sequence execute
at most once per connection. -/
theorem teardown_serialized_at_most_once :
    (∀ c : Conn, c.closed = false →
      (close_conn c).1 = 1 ∧ (close_conn c).2.closed = true)
    ∧ (∀ c : Conn, c.closed = true → close_conn c = (0, c))
    ∧ (∀ (cur : Int) (w : WorkerSt) (evs : List (Option Nat × DriveIo)) (cid : Nat),
        countT (.closedNow cid) (process_events cur w evs).2 ≤ 1 ∧
        countT (.dec cid) (process_events cur w evs).2 ≤ 1)
    ∧ (∀ (evs : List (Option Nat × DriveIo)) (cid : Nat),
        ∀ e ∈ invalidate_pending_events evs cid, e.1 ≠ some cid) := by
  refine ⟨?_, ?_, ?_, ?_⟩
  · intro c hc
    exact ⟨by simp [close_conn, hc], close_conn_snd_closed hc⟩
  · intro c hc
    exact close_conn_of_closed hc
  · intro cur w evs cid
    exact pe_counts_le_one cur cid w evs
  · intro evs cid e he
    unfold invalidate_pending_events at he
    obtain ⟨e0, -, he0⟩ := List.mem_map.mp he
    rcases e0 with ⟨oc, io2⟩
    by_cases h1 : oc = some cid
    · simp [h1] at he0
      rw [← he0]
      simp
    · simp [h1] at he0
      rw [← he0]
      simpa using h1

/-- Witness for C5 at concrete connections and a concrete batch. -/
theorem teardown_serialized_at_most_once_witness :
    (close_conn conn_stale).1 = 1 ∧ (close_conn conn_stale).2.closed = true ∧
    close_conn conn_closed_ex = (0, conn_closed_ex) ∧
    countT (.closedNow 0) (process_events 0 w_reg [(some 0, ioClientEof)]).2 ≤ 1 := by
  obtain ⟨h1, h2⟩ := teardown_serialized_at_most_once.1 conn_stale (by rfl)
  have h3 := teardown_serialized_at_most_once.2.1 conn_closed_ex (by rfl)
  have h4 := (teardown_serialized_at_most_once.2.2.1 0 w_reg [(some 0, ioClientEof)] 0).1
  exact ⟨h1, h2, h3, h4⟩

/-- C6: on an Established connection, a splice-in from the client that
moved n > 0 bytes adds exactly n to the client-to-backend byte counter,
and symmetrically a reached splice-in from the backend that moved m > 0
bytes adds exactly m to the backend-to-client counter; a would-block
splice-in adds nothing, and after an EOF or error on the client side
neither counter changes. -/
theorem splice_in_bytes_counted_exactly_once :
    ∀ (c : Conn) (io : DriveIo) (mc mb : Int) (n m : Nat),
      c.state = .established →
      ((io.c2b_in = .bytes n → 0 < n →
        (drive_connection c io mc mb).m_c2b = mc + n)
      ∧ (io.c2b_in = .nodata → (drive_connection c io mc mb).m_c2b = mc)
      ∧ ((io.c2b_in = .bytes n ∨ io.c2b_in = .nodata) → io.c2b_out = .ok →
          io.b2c_in = .bytes m → 0 < m →
          (drive_connection c io mc mb).m_b2c = mb + m)
      ∧ ((io.c2b_in = .eof ∨ io.c2b_in = .ioerr) →
          (drive_connection c io mc mb).m_c2b = mc ∧
          (drive_connection c io mc mb).m_b2c = mb)) := by
  intro c io mc mb n m hs
  have hns : ¬ c.state = .connecting := by rw [hs]; simp
  rcases io with ⟨se, ci, co, bi, bo⟩
  refine ⟨?_, ?_, ?_, ?_⟩
  · intro h1 hn
    subst h1
    have hni : (0 : Int) < (n : Int) := by exact_mod_cast hn
    cases co <;> cases bi <;> cases bo <;>
      simp [drive_connection, hns, drive_data, metrics_add_bytes_c2b, metrics_add_bytes_b2c,
        splice_in_ret, hni]
  · intro h1
    subst h1
    cases co <;> cases bi <;> cases bo <;>
      simp [drive_connection, hns, drive_data, metrics_add_bytes_c2b, metrics_add_bytes_b2c,
        splice_in_ret]
  · intro h1 h2 h3 hm
    subst h2; subst h3
    have hmi : (0 : Int) < (m : Int) := by exact_mod_cast hm
    rcases h1 with h1 | h1 <;> subst h1 <;> cases bo <;>
      simp [drive_connection, hns, drive_data, metrics_add_bytes_c2b, metrics_add_bytes_b2c,
        splice_in_ret, hmi]
  · intro h1
    rcases h1 with h1 | h1 <;> subst h1 <;>
      simp [drive_connection, hns, drive_data]

/-- Witness for C6 with 5 bytes moved in and 7 bytes moved back. -/
theorem splice_in_bytes_counted_exactly_once_witness :
    (drive_connection conn_stale ⟨.noErr, .bytes 5, .ok, .bytes 7, .ok⟩ 10 20).m_c2b = 15 ∧
    (drive_connection conn_stale ⟨.noErr, .bytes 5, .ok, .bytes 7, .ok⟩ 10 20).m_b2c = 27 := by
  have h := splice_in_bytes_counted_exactly_once conn_stale
    ⟨.noErr, .bytes 5, .ok, .bytes 7, .ok⟩ 10 20 5 7 (by rfl)
  exact ⟨h.1 rfl (by decide), h.2.2.1 (Or.inl rfl) rfl rfl (by decide)⟩

/-- C7: the driver distinguishes the two EOF cases — client EOF yields -1
and backend EOF yields -2 (gateway.h line 130) — the worker logs only the
-2 case as an unexpected backend close, and the teardown it applies is
identical for both: processing the two one-event batches leaves the worker
in the same state. -/
theorem eof_teardown_codes_distinct_cleanup_identical :
    (∀ (c : Conn) (io : DriveIo) (mc mb : Int),
      c.state = .established → io.c2b_in = .eof →
      (drive_connection c io mc mb).result = -1)
    ∧ (∀ (c : Conn) (io : DriveIo) (mc mb : Int),
      c.state = .established → io.c2b_in = .nodata → io.c2b_out = .ok → io.b2c_in = .eof →
      (drive_connection c io mc mb).result = -2)
    ∧ (∀ (cur : Int) (w : WorkerSt) (cid : Nat) (c : Conn),
      lookupConn w.conns cid = some c → c.epoch_bound = cur → c.state = .established →
      (process_events cur w [(some cid, ioClientEof)]).1 =
        (process_events cur w [(some cid, ioBackendEof)]).1)
    ∧ (∀ (cur : Int) (w : WorkerSt) (cid : Nat) (c : Conn),
      lookupConn w.conns cid = some c → c.epoch_bound = cur → c.state = .established →
      TEntry.warnBackendClosed cid ∈ (process_events cur w [(some cid, ioBackendEof)]).2 ∧
      TEntry.warnBackendClosed cid ∉ (process_events cur w [(some cid, ioClientEof)]).2) := by
  have hd1 : ∀ (c : Conn) (mc mb : Int), c.state = .established →
      drive_connection c ioClientEof mc mb = ⟨-1, c, mc, mb⟩ := by
    intro c mc mb hs
    have hns : ¬ c.state = .connecting := by rw [hs]; simp
    simp [drive_connection, hns, drive_data, ioClientEof]
  have hd2 : ∀ (c : Conn) (mc mb : Int), c.state = .established →
      drive_connection c ioBackendEof mc mb = ⟨-2, c, mc, mb⟩ := by
    intro c mc mb hs
    have hns : ¬ c.state = .connecting := by rw [hs]; simp
    simp [drive_connection, hns, drive_data, ioBackendEof, metrics_add_bytes_c2b,
      splice_in_ret]
  refine ⟨?_, ?_, ?_, ?_⟩
  · intro c io mc mb hs h1
    have hns : ¬ c.state = .connecting := by rw [hs]; simp
    rcases io with ⟨se, ci, co, bi, bo⟩
    simp only at h1
    subst h1
    simp [drive_connection, hns, drive_data]
  · intro c io mc mb hs h1 h2 h3
    have hns : ¬ c.state = .connecting := by rw [hs]; simp
    rcases io with ⟨se, ci, co, bi, bo⟩
    simp only at h1 h2 h3
    subst h1; subst h2; subst h3
    simp [drive_connection, hns, drive_data, metrics_add_bytes_c2b, splice_in_ret]
  · intro cur w cid c h heq hs
    have hepn : ¬ c.epoch_bound ≠ cur := by simp [heq]
    simp [process_events, h, hepn, hd1 c w.m_c2b w.m_b2c hs, hd2 c w.m_c2b w.m_b2c hs,
      consTrace, invalidate_pending_events, applyDrive]
  · intro cur w cid c h heq hs
    have hepn : ¬ c.epoch_bound ≠ cur := by simp [heq]
    constructor
    · simp [process_events, h, hepn, hd2 c w.m_c2b w.m_b2c hs, consTrace, failTrace,
        invalidate_pending_events]
    · have htd := teardown_conn_trace_cases (applyDrive w cid ⟨-1, c, w.m_c2b, w.m_b2c⟩) cid c
      rcases htd with ht | ht | ht <;>
        simp [process_events, h, hepn, hd1 c w.m_c2b w.m_b2c hs, consTrace, failTrace,
          invalidate_pending_events, ht]

/-- Witness for C7 at a concrete established connection. -/
theorem eof_teardown_codes_distinct_cleanup_identical_witness :
    (drive_connection conn_stale ioClientEof 0 0).result = -1 ∧
    (drive_connection conn_stale ioBackendEof 0 0).result = -2 ∧
    (process_events 1 w_stale [(some 0, ioClientEof)]).1 =
      (process_events 1 w_stale [(some 0, ioBackendEof)]).1 ∧
    TEntry.warnBackendClosed 0 ∈ (process_events 1 w_stale [(some 0, ioBackendEof)]).2 := by
  have h1 := eof_teardown_codes_distinct_cleanup_identical.1 conn_stale ioClientEof 0 0
    (by rfl) (by rfl)
  have h2 := eof_teardown_codes_distinct_cleanup_identical.2.1 conn_stale ioBackendEof 0 0
    (by rfl) (by rfl) (by rfl) (by rfl)
  have h3 := eof_teardown_codes_distinct_cleanup_identical.2.2.1 1 w_stale 0 conn_stale
    (by simp [w_stale, lookupConn]) (by rfl) (by rfl)
  have h4 := (eof_teardown_codes_distinct_cleanup_identical.2.2.2 1 w_stale 0 conn_stale
    (by simp [w_stale, lookupConn]) (by rfl) (by rfl)).1
  exact ⟨h1, h2, h3, h4⟩

/-- C8: on an event for a Connecting connection the driver queries the
backend SO_ERROR: still-in-progress leaves the connection Connecting with
result 0 (no teardown, no data flow and no counter change); a non-zero
error yields a negative result (teardown); zero moves the state to
Established and the data flow runs in the same invocation (moved client
bytes are counted immediately). -/
theorem connecting_so_error_state_machine :
    ∀ (c : Conn) (io : DriveIo) (mc mb : Int) (n : Nat),
      c.state = .connecting →
      ((io.so_err = .inProgress → drive_connection c io mc mb = ⟨0, c, mc, mb⟩)
      ∧ (io.so_err = .connErr →
          (drive_connection c io mc mb).result = -3 ∧
          (drive_connection c io mc mb).result < 0 ∧
          (drive_connection c io mc mb).conn = c)
      ∧ (io.so_err = .noErr →
          (drive_connection c io mc mb).conn.state = .established ∧
          (io.c2b_in = .bytes n → 0 < n →
            (drive_connection c io mc mb).m_c2b = mc + n))) := by
  intro c io mc mb n hs
  rcases io with ⟨se, ci, co, bi, bo⟩
  refine ⟨?_, ?_, ?_⟩
  · intro h1
    simp only at h1
    subst h1
    simp [drive_connection, hs]
  · intro h1
    simp only at h1
    subst h1
    simp [drive_connection, hs]
  · intro h1
    simp only at h1
    subst h1
    constructor
    · have := drive_data_conn { c with state := .established } ⟨.noErr, ci, co, bi, bo⟩ mc mb
      simp [drive_connection, hs, this]
    · intro h2 hn
      simp only at h2
      subst h2
      have hni : (0 : Int) < (n : Int) := by exact_mod_cast hn
      cases co <;> cases bi <;> cases bo <;>
        simp [drive_connection, hs, drive_data, metrics_add_bytes_c2b, metrics_add_bytes_b2c,
          splice_in_ret, hni]

/-- Witness for C8 at a concrete connecting connection. -/
def conn_connecting : Conn :=
  { client_fd := 3, backend_fd := 4, epoch_bound := 0, closed := false,
    registered := true, c2b_pipe_r := 5, c2b_pipe_w := 6, b2c_pipe_r := 7,
    b2c_pipe_w := 8, state := .connecting }

theorem connecting_so_error_state_machine_witness :
    drive_connection conn_connecting ⟨.inProgress, .nodata, .ok, .nodata, .ok⟩ 0 0 =
      ⟨0, conn_connecting, 0, 0⟩ ∧
    (drive_connection conn_connecting ⟨.connErr, .nodata, .ok, .nodata, .ok⟩ 0 0).result = -3 ∧
    (drive_connection conn_connecting ⟨.noErr, .bytes 5, .ok, .nodata, .ok⟩ 0 0).conn.state =
      .established ∧
    (drive_connection conn_connecting ⟨.noErr, .bytes 5, .ok, .nodata, .ok⟩ 0 0).m_c2b = 5 := by
  have h1 := (connecting_so_error_state_machine conn_connecting
    ⟨.inProgress, .nodata, .ok, .nodata, .ok⟩ 0 0 5 (by rfl)).1 rfl
  have h2 := ((connecting_so_error_state_machine conn_connecting
    ⟨.connErr, .nodata, .ok, .nodata, .ok⟩ 0 0 5 (by rfl)).2.1 rfl).1
  have h3 := (connecting_so_error_state_machine conn_connecting
    ⟨.noErr, .bytes 5, .ok, .nodata, .ok⟩ 0 0 5 (by rfl)).2.2 rfl
  exact ⟨h1, h2, h3.1, by rw [h3.2 rfl (by decide)]; decide⟩

/-- C9: health_thread_func never calls metrics_set_server_counts (its only
call site is parse_candidates, with healthy = 0), so a health cycle
returns the server gauges unchanged; concretely, after startup with one
candidate that probes as a writable primary, the cycle classifies one
backend as Primary yet the servers-healthy gauge still reads its startup
value 0 instead of 1. -/
theorem health_cycle_leaves_servers_healthy_gauge :
    (∀ (cands : List Candidate) (inp : HealthCycleIn) (st : PrimarySt) (g : ServerGauges),
      (health_cycle cands inp st g).2.1 = g)
    ∧ healthy_count (health_cycle [cand_a] ⟨[.primaryOk], some target_a⟩ ⟨-1, 0⟩
        (parse_candidates_gauges 1)).2.2 = 1
    ∧ (health_cycle [cand_a] ⟨[.primaryOk], some target_a⟩ ⟨-1, 0⟩
        (parse_candidates_gauges 1)).2.1.g_servers_healthy = 0
    ∧ (health_cycle [cand_a] ⟨[.primaryOk], some target_a⟩ ⟨-1, 0⟩
        (parse_candidates_gauges 1)).2.1.g_servers_healthy ≠
      (healthy_count (health_cycle [cand_a] ⟨[.primaryOk], some target_a⟩ ⟨-1, 0⟩
        (parse_candidates_gauges 1)).2.2 : Int) := by
  exact ⟨fun cands inp st g => rfl, by decide, by decide, by decide⟩

theorem find_new_idx_go_eq_none :
    ∀ (cands : List Candidate) (nt : TargetAddr) (i : Nat),
      (∀ cd ∈ cands,
        sockaddr_equal cd.target.addr cd.target.addr_len nt.addr nt.addr_len = false) →
      find_new_idx_go cands nt i = -1 := by
  intro cands
  induction cands with
  | nil => intro nt i _h; rfl
  | cons cd rest ih =>
    intro nt i h
    rw [find_new_idx_go, if_neg (by simp [h cd (List.mem_cons_self cd rest)])]
    exact ih nt (i + 1) fun cd' hm => h cd' (List.mem_cons_of_mem cd hm)

/-- C10: when the freshly resolved address of the found primary compares
equal (by sockaddr_equal) to no candidate's cached target, the scan of
health_check.c lines 256-262 yields new_idx = -1 and the cycle publishes
primary_idx = -1, so the acceptor answers new clients with the no-primary
ErrorResponse frame even though a writable primary was found. -/
theorem unmatched_resolved_primary_publishes_none :
    ∀ (cands : List Candidate) (nt : TargetAddr) (st : PrimarySt),
      (∀ cd ∈ cands,
        sockaddr_equal cd.target.addr cd.target.addr_len nt.addr nt.addr_len = false) →
      (health_publish cands true nt st).1.g_primary_idx = -1 ∧
      acceptor_route (health_publish cands true nt st).1.g_primary_idx cands.length =
        .sendError (send_pg_error noPrimaryMsg) := by
  intro cands nt st h
  have hidx : find_new_idx cands nt = -1 := find_new_idx_go_eq_none cands nt 0 h
  have h1 : (health_publish cands true nt st).1.g_primary_idx = -1 := by
    simp only [health_publish, hidx, if_true]
    by_cases hch : (-1 : Int) ≠ st.g_primary_idx
    · rw [if_pos hch]
    · rw [if_neg hch]
      push_neg at hch
      exact hch.symm
  rw [h1]
  refine ⟨rfl, ?_⟩
  simp [acceptor_route]

/-- Witness for C10: one candidate cached at 10.0.0.1:5432 while the fresh
resolution returns 10.0.0.2:5432. -/
theorem unmatched_resolved_primary_publishes_none_witness :
    (health_publish [cand_a] true target_b ⟨0, 7⟩).1.g_primary_idx = -1 ∧
    acceptor_route (health_publish [cand_a] true target_b ⟨0, 7⟩).1.g_primary_idx 1 =
      .sendError (send_pg_error noPrimaryMsg) := by
  have h := unmatched_resolved_primary_publishes_none [cand_a] target_b ⟨0, 7⟩ (by
    intro cd hm
    rw [List.mem_singleton] at hm
    subst hm
    decide)
  simpa using h


end PgGateway
